import Mathlib

/-!
Shallow embedding of the poster-resolution core of
`discord-rich-presence-plex` (`src/app/images.py`).

The module has three functions:
- `isValidImageUrl` — a pure predicate on candidate URL strings;
- `upload` — the by-key resolution flow (cache read, validation,
  delete of poisoned entries, download, decode, normalize, discard);
- `getTmdbPosterUrl` — the metadata-provider flow (cache read,
  endpoint selection by media type, fetch, write-through cache).

External effects (cache store, HTTP, image decoding) are modelled by an
explicit environment of functions plus a trace of emitted effects, so
that claims about "no network call" or "delete exactly once" become
statements about the trace.

String operations (`strip`, `lower`, `startswith`, `len`) are embedded
over `String.data` (the character list), which the kernel can evaluate;
this matches Python semantics, where strings are sequences of code
points.
-/

/-- Python `str.strip()`: drop leading and trailing whitespace. -/
def pyStrip (s : String) : String :=
  String.mk (((s.data.dropWhile Char.isWhitespace).reverse.dropWhile
    Char.isWhitespace).reverse)

/-- Python `str.lower()` (the source only ever lowers ASCII markers). -/
def pyLower (s : String) : String :=
  String.mk (s.data.map Char.toLower)

/-- Python `str.startswith(p)`. -/
def pyStartsWith (s p : String) : Bool :=
  p.data.isPrefixOf s.data

/-- Python `len(s)`: number of code points. -/
def pyLen (s : String) : Nat :=
  s.data.length

/-- Python truthiness of an optional string: `None` and `""` are falsy.
The source guards cache hits and the API key with `if value:`. -/
def truthy : Option String → Bool
  | none => false
  | some s => s ≠ ""

/-- The HTML document markers rejected by `isValidImageUrl`
(`url.strip().lower().startswith(("<!doctype", "<html", "<!html"))`). -/
def htmlMarkers : List String := ["<!doctype", "<html", "<!html"]

/-- Embedding of `isValidImageUrl` (images.py lines 7-23). A `none`
argument models passing Python `None` (`not url or not isinstance(url, str)`
rejects it). -/
def isValidImageUrl : Option String → Bool
  | none => false
  | some url =>
    if url = "" then false
    else if htmlMarkers.any (fun m => pyStartsWith (pyLower (pyStrip url)) m) then
      false
    else if ¬ (pyStartsWith url "http://" ∨ pyStartsWith url "https://") then
      false
    else if pyLen url > 500 then false
    else true

/-- Observable side effects of the resolution flows, in emission order. -/
inductive Effect where
  | cacheGet (key : String)
  | cacheDelete (key : String)
  | cacheSet (key value : String) (ttlSeconds : Nat)
  | httpGet (url : String)
  | decodeImage
deriving DecidableEq, Repr

/-- A decoded bitmap, abstracted to its dimensions (the claims about the
normalizer are dimension-level; pixel payloads live in PIL, outside this
repository). -/
structure Image where
  width : Nat
  height : Nat
deriving DecidableEq, Repr

/-- The `display.posters` configuration slice read by `upload`:
`fit : bool` and `maxSize`, where `maxSize = 0` models a falsy value
(Python `if maxSize:` skips the resize for `None` and `0` alike). -/
structure DisplayConfig where
  fit : Bool
  maxSize : Nat
deriving DecidableEq, Repr

/-- The fill colour the source passes to `ImageOps.pad`
(`color = (0, 0, 0, 0)`): fully transparent black. -/
def squarePadFill : Nat × Nat × Nat × Nat := (0, 0, 0, 0)

/-- The square-fit step of `upload` (images.py lines 47-50): when the
image is not square and `fit` is enabled, pad to a square whose side is
the longest original side; otherwise leave the image unchanged. -/
def squareFitStep (fit : Bool) (img : Image) : Image :=
  if img.width ≠ img.height ∧ fit = true then
    { width := max img.width img.height, height := max img.width img.height }
  else img

/-- Nearest-integer rounding of `p / q`, ties broken downward; this is
what PIL computes with `round_aspect` (choose between floor and ceil the
value whose ratio is nearest the aspect, preferring floor on a tie). -/
def roundRatio (p q : Nat) : Nat :=
  p / q + (if q < 2 * (p % q) then 1 else 0)

/-- Modelled from the spec: the dimension behaviour of PIL
`Image.thumbnail((maxSize, maxSize))` invoked by `upload` (images.py
line 54); PIL is an external image-processing capability, not part of
this repository. No change when the image already fits in the box,
otherwise downscale preserving the aspect ratio so that the longest side
becomes `maxSize`, rounding the other side to the nearest integer and
clamping it to at least 1. -/
def thumbnailDims (maxSize : Nat) (img : Image) : Image :=
  if img.width ≤ maxSize ∧ img.height ≤ maxSize then img
  else if img.width ≤ img.height then
    { width := max (roundRatio (maxSize * img.width) img.height) 1,
      height := maxSize }
  else
    { width := maxSize,
      height := max (roundRatio (maxSize * img.height) img.width) 1 }

/-- The normalization pipeline of `upload` on dimensions (images.py
lines 47-55): square-fit step, then bounded resize when `maxSize` is
truthy. -/
def normalizeDims (cfg : DisplayConfig) (img : Image) : Image :=
  let padded := squareFitStep cfg.fit img
  if cfg.maxSize ≠ 0 then thumbnailDims cfg.maxSize padded else padded

/-- `upload` raises only on a failed bitmap decode (`Image.open` /
`convert`, images.py line 43, outside any `try`). -/
inductive UploadError where
  | decodeFailure
deriving DecidableEq, Repr

/-- Environment of external capabilities consumed by `upload`:
the cache store, the HTTP fetch of raw bytes (`none` models a transport
exception from `requests.get`), the bitmap decoder (`none` models a
decode exception from `Image.open`), and the display configuration. -/
structure UploadEnv where
  cache : String → Option String
  download : String → Option (List Nat)
  decode : List Nat → Option Image
  cfg : DisplayConfig

/-- The tail of `upload` after the cache fast path (images.py lines
37-61): download (a transport failure is caught and degrades to `none`),
decode (failure raises), normalize, encode, then discard the result
because the upload sink is disabled. `tr` is the trace accumulated by
the cache phase. -/
def downloadAndProcess (env : UploadEnv) (url : String) (tr : List Effect) :
    Except UploadError (Option String) × List Effect :=
  let tr := tr ++ [Effect.httpGet url]
  match env.download url with
  | none => (Except.ok none, tr)
  | some bytes =>
    let tr := tr ++ [Effect.decodeImage]
    match env.decode bytes with
    | none => (Except.error UploadError.decodeFailure, tr)
    | some img =>
      let _normalized := normalizeDims env.cfg img
      (Except.ok none, tr)

/-- Embedding of `upload` (images.py lines 25-61): read the cache; a
truthy hit that validates is returned as-is; a truthy hit that fails
validation is deleted and the flow falls through to download; a falsy
value (miss or empty string) falls through without a delete. -/
def upload (env : UploadEnv) (key url : String) :
    Except UploadError (Option String) × List Effect :=
  let cachedValue := env.cache key
  let tr : List Effect := [Effect.cacheGet key]
  if truthy cachedValue then
    if isValidImageUrl cachedValue then
      (Except.ok cachedValue, tr)
    else
      downloadAndProcess env url (tr ++ [Effect.cacheDelete key])
  else
    downloadAndProcess env url tr

/-- Outcome of the TMDB metadata fetch: a parsed 2xx JSON body with an
optional `poster_path` field, a `requests.exceptions.RequestException`
(timeout, transport error, or non-2xx via `raise_for_status`), or any
other exception while processing the response. -/
inductive TmdbOutcome where
  | ok (posterPath : Option String)
  | requestError
  | processingError
deriving DecidableEq, Repr

/-- Environment consumed by `getTmdbPosterUrl`: the configured API key
(`none` or `""` is falsy and disables the feature), the cache store, and
the metadata provider HTTP API keyed by endpoint URL. -/
structure TmdbEnv where
  apiKey : Option String
  cache : String → Option String
  fetch : String → TmdbOutcome

/-- Endpoint selection of `getTmdbPosterUrl` (images.py lines 89-96):
`movie` uses the movie-detail endpoint, `episode` and `live_episode`
the show-detail endpoint, anything else has no endpoint. -/
def tmdbEndpoint (mediaType tmdbId : String) : Option String :=
  if mediaType = "movie" then
    some ("https://api.themoviedb.org/3/movie/" ++ tmdbId)
  else if mediaType = "episode" ∨ mediaType = "live_episode" then
    some ("https://api.themoviedb.org/3/tv/" ++ tmdbId)
  else none

/-- The composite cache key `f"tmdb_{mediaType}_{tmdbId}_{size}"`. -/
def tmdbCacheKey (mediaType tmdbId size : String) : String :=
  "tmdb_" ++ mediaType ++ "_" ++ tmdbId ++ "_" ++ size

/-- Embedding of `getTmdbPosterUrl` (images.py lines 63-121): bail out
when the id or the API key is falsy; return a truthy cached URL before
selecting an endpoint; unrecognized media types yield `none`; on a fetch
returning a truthy `poster_path`, compose the CDN URL, write it through
to the cache with ttl 0, and return it; every exception is caught and
degrades to `none`. -/
def getTmdbPosterUrl (env : TmdbEnv) (tmdbId mediaType size : String) :
    Option String × List Effect :=
  if tmdbId = "" ∨ truthy env.apiKey = false then (none, [])
  else
    let cacheKey := tmdbCacheKey mediaType tmdbId size
    let cachedUrl := env.cache cacheKey
    let tr : List Effect := [Effect.cacheGet cacheKey]
    if truthy cachedUrl then (cachedUrl, tr)
    else
      match tmdbEndpoint mediaType tmdbId with
      | none => (none, tr)
      | some endpoint =>
        let tr := tr ++ [Effect.httpGet endpoint]
        match env.fetch endpoint with
        | TmdbOutcome.requestError => (none, tr)
        | TmdbOutcome.processingError => (none, tr)
        | TmdbOutcome.ok posterPath =>
          if truthy posterPath then
            let posterUrl :=
              "https://image.tmdb.org/t/p/" ++ size ++ posterPath.getD ""
            (some posterUrl, tr ++ [Effect.cacheSet cacheKey posterUrl 0])
          else (none, tr)

/-- A provider environment with an API key, an empty cache, and a
provider that always fails. -/
def tmdbNoCacheEnv : TmdbEnv :=
  { apiKey := some "k", cache := fun _ => none,
    fetch := fun _ => TmdbOutcome.requestError }

/-- A provider environment for the concrete scenario of C7. -/
def tmdbMovieEnv : TmdbEnv :=
  { apiKey := some "k", cache := fun _ => none,
    fetch := fun e =>
      if e = "https://api.themoviedb.org/3/movie/1399" then
        TmdbOutcome.ok (some "/abc.jpg")
      else TmdbOutcome.requestError }

/-- C4: `isValidImageUrl` is total and returns `true` exactly when the
candidate is a non-empty string whose stripped, lowered content starts
with none of the HTML markers `<!doctype`, `<html`, `<!html`, which
starts with `http://` or `https://`, and whose length is at most 500;
in particular `None` and `""` are rejected and
`"https://example.com/a.png"` is accepted. -/
theorem isValidImageUrl_characterization :
    (∀ c : Option String, isValidImageUrl c = true ↔
      ∃ s, c = some s ∧ s ≠ "" ∧
        pyStartsWith (pyLower (pyStrip s)) "<!doctype" = false ∧
        pyStartsWith (pyLower (pyStrip s)) "<html" = false ∧
        pyStartsWith (pyLower (pyStrip s)) "<!html" = false ∧
        (pyStartsWith s "http://" = true ∨ pyStartsWith s "https://" = true) ∧
        pyLen s ≤ 500) ∧
    isValidImageUrl none = false ∧
    isValidImageUrl (some "") = false ∧
    isValidImageUrl (some "https://example.com/a.png") = true := by
  refine ⟨fun c => ?_, by decide, by decide, by decide⟩
  cases c with
  | none => simp [isValidImageUrl]
  | some s =>
    constructor
    · intro h
      simp only [isValidImageUrl] at h
      split_ifs at h with h0 h1 h2 h3
      simp only [htmlMarkers, List.any_cons, List.any_nil, Bool.or_false,
        Bool.or_eq_true, not_or, Bool.not_eq_true] at h1
      exact ⟨s, rfl, h0, h1.1, h1.2.1, h1.2.2, h2, Nat.le_of_not_lt h3⟩
    · rintro ⟨t, ht, hne, ha, hb, hc, hhttp, hlen⟩
      obtain rfl : s = t := by injection ht
      simp only [isValidImageUrl]
      rw [if_neg hne, if_neg ?_, if_neg (not_not_intro hhttp),
        if_neg (Nat.not_lt.mpr hlen)]
      simp [htmlMarkers, ha, hb, hc]

/-- C3: a truthy cached value that passes validation is returned
unchanged, with no network call and no cache mutation: the whole trace
is the single cache read. -/
theorem upload_valid_cache_hit (env : UploadEnv) (key url v : String)
    (hc : env.cache key = some v) (hv : isValidImageUrl (some v) = true) :
    upload env key url = (Except.ok (some v), [Effect.cacheGet key]) := by
  have hne : v ≠ "" := by
    rintro rfl
    exact absurd hv (by decide)
  have ht : truthy (some v) = true := by simp [truthy, hne]
  simp [upload, hc, ht, hv]

/-- C3 witness: a concrete environment whose cache holds a valid URL. -/
theorem upload_valid_cache_hit_witness :
    upload
      { cache := fun k => if k = "key1" then some "https://example.com/a.png" else none,
        download := fun _ => none, decode := fun _ => none,
        cfg := { fit := false, maxSize := 0 } }
      "key1" "https://src.example/b.png" =
    (Except.ok (some "https://example.com/a.png"), [Effect.cacheGet "key1"]) :=
  upload_valid_cache_hit _ "key1" "https://src.example/b.png"
    "https://example.com/a.png" (by decide) (by decide)

/-- C2 counterexample: the cache read returns the empty string, which
fails `isValidImageUrl`, yet `upload` performs no delete: the falsy
value skips the invalid-entry branch and is treated as a miss. -/
theorem upload_empty_cached_value_no_delete :
    (fun k => if k = "k" then some "" else (none : Option String)) "k" = some "" ∧
    isValidImageUrl (some "") = false ∧
    ((upload
      { cache := fun k => if k = "k" then some "" else none,
        download := fun _ => none, decode := fun _ => none,
        cfg := { fit := false, maxSize := 0 } }
      "k" "u").2.count (Effect.cacheDelete "k") = 0) := by
  refine ⟨rfl, by decide, ?_⟩
  rfl

/-- C2 amended: when the cache read returns a truthy (non-empty) value
that fails `isValidImageUrl`, `upload` deletes that key exactly once,
and the delete happens right after the read and before the download; a
falsy cached value (absent or empty string) is treated as a miss with no
delete. -/
theorem upload_invalid_cache_delete_once (env : UploadEnv)
    (key url v : String) (hc : env.cache key = some v) (hne : v ≠ "")
    (hv : isValidImageUrl (some v) = false) :
    (upload env key url).2.count (Effect.cacheDelete key) = 1 ∧
    ∃ rest, (upload env key url).2 =
      Effect.cacheGet key :: Effect.cacheDelete key :: Effect.httpGet url :: rest := by
  have ht : truthy (some v) = true := by simp [truthy, hne]
  cases hdl : env.download url with
  | none =>
    simp [upload, downloadAndProcess, hc, ht, hv, hdl, List.count_cons]
  | some bytes =>
    cases hdec : env.decode bytes with
    | none =>
      simp [upload, downloadAndProcess, hc, ht, hv, hdl, hdec, List.count_cons]
    | some img =>
      simp [upload, downloadAndProcess, hc, ht, hv, hdl, hdec, List.count_cons]

/-- C2 amended witness: a concrete poisoned cache entry (an HTML body)
is deleted exactly once before the download. -/
theorem upload_invalid_cache_delete_once_witness :
    (upload
      { cache := fun k => if k = "k" then some "<html>err</html>" else none,
        download := fun _ => none, decode := fun _ => none,
        cfg := { fit := false, maxSize := 0 } }
      "k" "u").2.count (Effect.cacheDelete "k") = 1 ∧
    ∃ rest, (upload
      { cache := fun k => if k = "k" then some "<html>err</html>" else none,
        download := fun _ => none, decode := fun _ => none,
        cfg := { fit := false, maxSize := 0 } }
      "k" "u").2 =
      Effect.cacheGet "k" :: Effect.cacheDelete "k" :: Effect.httpGet "u" :: rest :=
  upload_invalid_cache_delete_once _ "k" "u" "<html>err</html>"
    (by decide) (by decide) (by decide)

/-- C1 counterexample: with an unrecognized media type but a truthy
cache entry under the composite key, `getTmdbPosterUrl` returns the
cached value, not `none` — the cache read happens before endpoint
selection. -/
theorem getTmdbPosterUrl_documentary_cached_hit :
    getTmdbPosterUrl
      { apiKey := some "k",
        cache := fun c =>
          if c = "tmdb_documentary_1399_w500" then
            some "https://cached.example/p.png"
          else none,
        fetch := fun _ => TmdbOutcome.requestError }
      "1399" "documentary" "w500" =
      (some "https://cached.example/p.png",
       [Effect.cacheGet "tmdb_documentary_1399_w500"]) ∧
    some "https://cached.example/p.png" ≠ (none : Option String) :=
  ⟨rfl, by decide⟩

/-- C1 amended: with an unrecognized media type, `getTmdbPosterUrl`
never issues a network call, and returns `none` unless the cache holds a
truthy entry under the composite key, in which case that cached value is
returned. -/
theorem getTmdbPosterUrl_unrecognized_type (env : TmdbEnv)
    (tmdbId size mediaType : String)
    (h1 : mediaType ≠ "movie") (h2 : mediaType ≠ "episode")
    (h3 : mediaType ≠ "live_episode") :
    (∀ u, Effect.httpGet u ∉ (getTmdbPosterUrl env tmdbId mediaType size).2) ∧
    (truthy (env.cache (tmdbCacheKey mediaType tmdbId size)) = false →
      (getTmdbPosterUrl env tmdbId mediaType size).1 = none) := by
  have hend : tmdbEndpoint mediaType tmdbId = none := by
    simp [tmdbEndpoint, h1, h2, h3]
  by_cases h0 : tmdbId = "" ∨ truthy env.apiKey = false
  · simp [getTmdbPosterUrl, h0]
  · cases hcv : truthy (env.cache (tmdbCacheKey mediaType tmdbId size)) with
    | true => simp [getTmdbPosterUrl, h0, hcv]
    | false => simp [getTmdbPosterUrl, h0, hcv, hend]

/-- C1 amended witness: concretely, `mediaType = "documentary"` with an
empty cache yields `none` and no request to either endpoint shape. -/
theorem getTmdbPosterUrl_unrecognized_type_witness :
    Effect.httpGet "https://api.themoviedb.org/3/tv/1399" ∉
      (getTmdbPosterUrl tmdbNoCacheEnv "1399" "documentary" "w500").2 ∧
    (getTmdbPosterUrl tmdbNoCacheEnv "1399" "documentary" "w500").1 = none :=
  ⟨(getTmdbPosterUrl_unrecognized_type tmdbNoCacheEnv "1399" "w500"
      "documentary" (by decide) (by decide) (by decide)).1 _,
   (getTmdbPosterUrl_unrecognized_type tmdbNoCacheEnv "1399" "w500"
      "documentary" (by decide) (by decide) (by decide)).2 (by decide)⟩

/-- C5: when no valid cache fast path applies and the download yields
bytes the decoder rejects, `upload` surfaces the explicit decode error
instead of degrading to `none`. -/
theorem upload_decode_failure_raises (env : UploadEnv) (key url : String)
    (bytes : List Nat)
    (hcache : ∀ v, env.cache key = some v → isValidImageUrl (some v) = false)
    (hdl : env.download url = some bytes)
    (hdec : env.decode bytes = none) :
    (upload env key url).1 = Except.error UploadError.decodeFailure := by
  cases hc : env.cache key with
  | none =>
    have ht : truthy none = false := by decide
    simp [upload, downloadAndProcess, hc, ht, hdl, hdec]
  | some v =>
    by_cases hne : v = ""
    · subst hne
      have ht : truthy (some "") = false := by decide
      simp [upload, downloadAndProcess, hc, ht, hdl, hdec]
    · have hv := hcache v hc
      have ht : truthy (some v) = true := by simp [truthy, hne]
      simp [upload, downloadAndProcess, hc, ht, hv, hdl, hdec]

/-- C5 witness: a concrete miss-then-undecodable-download run raises. -/
theorem upload_decode_failure_raises_witness :
    (upload
      { cache := fun _ => none, download := fun _ => some [0],
        decode := fun _ => none, cfg := { fit := true, maxSize := 256 } }
      "k" "https://src.example/x").1 =
    Except.error UploadError.decodeFailure :=
  upload_decode_failure_raises _ "k" "https://src.example/x" [0]
    (fun _ h => Option.noConfusion h) rfl rfl

/-- C6: when no valid cache fast path applies and the download raises a
transport exception, `upload` catches it and returns `none` — no error
escapes and the decode / normalization phase is never entered. -/
theorem upload_download_failure_degrades (env : UploadEnv) (key url : String)
    (hcache : ∀ v, env.cache key = some v → isValidImageUrl (some v) = false)
    (hdl : env.download url = none) :
    (upload env key url).1 = Except.ok none ∧
    Effect.decodeImage ∉ (upload env key url).2 := by
  cases hc : env.cache key with
  | none =>
    have ht : truthy none = false := by decide
    simp [upload, downloadAndProcess, hc, ht, hdl]
  | some v =>
    by_cases hne : v = ""
    · subst hne
      have ht : truthy (some "") = false := by decide
      simp [upload, downloadAndProcess, hc, ht, hdl]
    · have hv := hcache v hc
      have ht : truthy (some v) = true := by simp [truthy, hne]
      simp [upload, downloadAndProcess, hc, ht, hv, hdl]

/-- C6 witness: a concrete failing download degrades to `none`. -/
theorem upload_download_failure_degrades_witness :
    (upload
      { cache := fun _ => none, download := fun _ => none,
        decode := fun _ => none, cfg := { fit := true, maxSize := 256 } }
      "k" "https://src.example/x").1 = Except.ok none ∧
    Effect.decodeImage ∉
      (upload
        { cache := fun _ => none, download := fun _ => none,
          decode := fun _ => none, cfg := { fit := true, maxSize := 256 } }
        "k" "https://src.example/x").2 :=
  upload_download_failure_degrades _ "k" "https://src.example/x"
    (fun _ h => Option.noConfusion h) rfl

/-- C7: on a cache miss with the key configured, a recognized media type
(one with an endpoint) and a 2xx response carrying a truthy poster path,
`getTmdbPosterUrl` returns the CDN URL composed from size and path and
writes exactly that string through to the cache under the composite key
with ttl 0 (no expiry) before returning. -/
theorem getTmdbPosterUrl_miss_success (env : TmdbEnv)
    (tmdbId mediaType size endpoint p : String)
    (hid : tmdbId ≠ "") (hkey : truthy env.apiKey = true)
    (hmiss : truthy (env.cache (tmdbCacheKey mediaType tmdbId size)) = false)
    (hend : tmdbEndpoint mediaType tmdbId = some endpoint)
    (hresp : env.fetch endpoint = TmdbOutcome.ok (some p))
    (hp : p ≠ "") :
    getTmdbPosterUrl env tmdbId mediaType size =
      (some ("https://image.tmdb.org/t/p/" ++ size ++ p),
       [Effect.cacheGet ("tmdb_" ++ mediaType ++ "_" ++ tmdbId ++ "_" ++ size),
        Effect.httpGet endpoint,
        Effect.cacheSet ("tmdb_" ++ mediaType ++ "_" ++ tmdbId ++ "_" ++ size)
          ("https://image.tmdb.org/t/p/" ++ size ++ p) 0]) := by
  have h0 : ¬(tmdbId = "" ∨ truthy env.apiKey = false) := by
    simp [hid, hkey]
  have htp : truthy (some p) = true := by simp [truthy, hp]
  have hmiss2 : truthy
      (env.cache ("tmdb_" ++ mediaType ++ "_" ++ tmdbId ++ "_" ++ size)) =
      false := by simpa [tmdbCacheKey] using hmiss
  simp [getTmdbPosterUrl, h0, hmiss2, hend, hresp, htp, tmdbCacheKey]

/-- C7 witness: identifier 1399, media type movie, size w500 and poster
path `/abc.jpg` yield `https://image.tmdb.org/t/p/w500/abc.jpg`, cached
under `tmdb_movie_1399_w500` with ttl 0. -/
theorem getTmdbPosterUrl_miss_success_witness :
    getTmdbPosterUrl tmdbMovieEnv "1399" "movie" "w500" =
      (some "https://image.tmdb.org/t/p/w500/abc.jpg",
       [Effect.cacheGet "tmdb_movie_1399_w500",
        Effect.httpGet "https://api.themoviedb.org/3/movie/1399",
        Effect.cacheSet "tmdb_movie_1399_w500"
          "https://image.tmdb.org/t/p/w500/abc.jpg" 0]) := by
  rw [getTmdbPosterUrl_miss_success tmdbMovieEnv "1399" "movie" "w500"
    "https://api.themoviedb.org/3/movie/1399" "/abc.jpg"
    (by decide) (by decide) (by decide) (by decide) (by decide) (by decide)]
  rfl

/-- After the cache phase, the by-key flow only ever produces `none` or
the decode error: the download tail never produces a URL. -/
theorem downloadAndProcess_result (env : UploadEnv) (url : String)
    (tr : List Effect) :
    (downloadAndProcess env url tr).1 = Except.ok none ∨
    (downloadAndProcess env url tr).1 =
      Except.error UploadError.decodeFailure := by
  cases hdl : env.download url with
  | none => left; simp [downloadAndProcess, hdl]
  | some bytes =>
    cases hdec : env.decode bytes with
    | none => right; simp [downloadAndProcess, hdl, hdec]
    | some img => left; simp [downloadAndProcess, hdl, hdec]

/-- C9: whenever `upload` proceeds past the cache fast path (miss or
invalidated entry) and download, decode, normalization and encoding all
succeed, it still returns `none` — the normalized output is discarded
because the upload sink is disabled; and in general the only non-`none`
return of `upload` is a cached value that passed validation. -/
theorem upload_success_discards (env : UploadEnv) (key url : String)
    (bytes : List Nat) (img : Image)
    (hcache : ∀ v, env.cache key = some v → isValidImageUrl (some v) = false)
    (hdl : env.download url = some bytes)
    (hdec : env.decode bytes = some img) :
    (upload env key url).1 = Except.ok none ∧
    ∀ (env2 : UploadEnv) (key2 url2 v : String),
      (upload env2 key2 url2).1 = Except.ok (some v) →
      env2.cache key2 = some v ∧ isValidImageUrl (some v) = true := by
  constructor
  · cases hc : env.cache key with
    | none =>
      have ht : truthy none = false := by decide
      simp [upload, downloadAndProcess, hc, ht, hdl, hdec]
    | some v =>
      by_cases hne : v = ""
      · subst hne
        have ht : truthy (some "") = false := by decide
        simp [upload, downloadAndProcess, hc, ht, hdl, hdec]
      · have hv := hcache v hc
        have ht : truthy (some v) = true := by simp [truthy, hne]
        simp [upload, downloadAndProcess, hc, ht, hv, hdl, hdec]
  · intro env2 key2 url2 v h
    have contra : ∀ tr, (downloadAndProcess env2 url2 tr).1 ≠
        Except.ok (some v) := by
      intro tr hcontra
      rcases downloadAndProcess_result env2 url2 tr with h2 | h2 <;>
        rw [h2] at hcontra <;> simp at hcontra
    cases hc : env2.cache key2 with
    | none =>
      have ht : truthy none = false := by decide
      have he : (upload env2 key2 url2).1 =
          (downloadAndProcess env2 url2 [Effect.cacheGet key2]).1 := by
        simp [upload, hc, ht]
      rw [he] at h
      exact absurd h (contra _)
    | some w =>
      by_cases hne : w = ""
      · subst hne
        have ht : truthy (some "") = false := by decide
        have he : (upload env2 key2 url2).1 =
            (downloadAndProcess env2 url2 [Effect.cacheGet key2]).1 := by
          simp [upload, hc, ht]
        rw [he] at h
        exact absurd h (contra _)
      · have ht : truthy (some w) = true := by simp [truthy, hne]
        cases hvd : isValidImageUrl (some w) with
        | true =>
          have he : (upload env2 key2 url2).1 = Except.ok (some w) := by
            simp [upload, hc, ht, hvd]
          rw [he] at h
          injection h with h2
          injection h2 with h3
          subst h3
          exact ⟨rfl, hvd⟩
        | false =>
          have he : (upload env2 key2 url2).1 =
              (downloadAndProcess env2 url2
                [Effect.cacheGet key2, Effect.cacheDelete key2]).1 := by
            simp [upload, hc, ht, hvd]
          rw [he] at h
          exact absurd h (contra _)

/-- C9 witness: a concrete fully-successful run past the fast path
returns `none`. -/
theorem upload_success_discards_witness :
    (upload
      { cache := fun _ => none, download := fun _ => some [7],
        decode := fun _ => some ⟨200, 300⟩,
        cfg := { fit := true, maxSize := 256 } }
      "k" "https://src.example/x").1 = Except.ok none :=
  (upload_success_discards _ "k" "https://src.example/x" [7] ⟨200, 300⟩
    (fun _ h => Option.noConfusion h) rfl rfl).1

/-- The five possible effect traces of `upload`: validated hit; miss
then failed download; miss then decode; invalidated entry then failed
download; invalidated entry then decode. -/
theorem upload_trace_cases (env : UploadEnv) (key url : String) :
    (upload env key url).2 = [Effect.cacheGet key] ∨
    (upload env key url).2 = [Effect.cacheGet key, Effect.httpGet url] ∨
    (upload env key url).2 =
      [Effect.cacheGet key, Effect.httpGet url, Effect.decodeImage] ∨
    (upload env key url).2 =
      [Effect.cacheGet key, Effect.cacheDelete key, Effect.httpGet url] ∨
    (upload env key url).2 =
      [Effect.cacheGet key, Effect.cacheDelete key, Effect.httpGet url,
       Effect.decodeImage] := by
  have tail : ∀ tr0, (downloadAndProcess env url tr0).2 = tr0 ++ [Effect.httpGet url] ∨
      (downloadAndProcess env url tr0).2 =
        tr0 ++ [Effect.httpGet url, Effect.decodeImage] := by
    intro tr0
    cases hdl : env.download url with
    | none => left; simp [downloadAndProcess, hdl]
    | some bytes =>
      cases hdec : env.decode bytes with
      | none => right; simp [downloadAndProcess, hdl, hdec]
      | some img => right; simp [downloadAndProcess, hdl, hdec]
  cases hc : env.cache key with
  | none =>
    have ht : truthy none = false := by decide
    have he : (upload env key url).2 =
        (downloadAndProcess env url [Effect.cacheGet key]).2 := by
      simp [upload, hc, ht]
    rcases tail [Effect.cacheGet key] with h | h <;> rw [he, h] <;> simp
  | some w =>
    by_cases hne : w = ""
    · subst hne
      have ht : truthy (some "") = false := by decide
      have he : (upload env key url).2 =
          (downloadAndProcess env url [Effect.cacheGet key]).2 := by
        simp [upload, hc, ht]
      rcases tail [Effect.cacheGet key] with h | h <;> rw [he, h] <;> simp
    · have ht : truthy (some w) = true := by simp [truthy, hne]
      cases hvd : isValidImageUrl (some w) with
      | true =>
        left
        simp [upload, hc, ht, hvd]
      | false =>
        have he : (upload env key url).2 =
            (downloadAndProcess env url
              [Effect.cacheGet key, Effect.cacheDelete key]).2 := by
          simp [upload, hc, ht, hvd]
        rcases tail [Effect.cacheGet key, Effect.cacheDelete key] with h | h <;>
          rw [he, h] <;> simp

/-- C10: `upload` never emits a cache write, and the only delete it can
emit targets the resolved key, at most once — the by-key path never
creates or overwrites a cache entry. -/
theorem upload_no_cache_writes (env : UploadEnv) (key url : String) :
    (∀ k v t, Effect.cacheSet k v t ∉ (upload env key url).2) ∧
    (∀ k, Effect.cacheDelete k ∈ (upload env key url).2 → k = key) ∧
    (upload env key url).2.count (Effect.cacheDelete key) ≤ 1 := by
  rcases upload_trace_cases env key url with h | h | h | h | h <;>
    rw [h] <;>
    refine ⟨by simp, ?_, by simp [List.count_cons]⟩ <;>
    intro k hk <;> simp at hk <;> tauto

/-- C10 witness: a concrete invalidated-entry run deletes only its own
key and writes nothing. -/
theorem upload_no_cache_writes_witness :
    Effect.cacheSet "k" "v" 0 ∉
      (upload
        { cache := fun c => if c = "k" then some "<html>" else none,
          download := fun _ => none, decode := fun _ => none,
          cfg := { fit := false, maxSize := 0 } }
        "k" "https://src.example/x").2 ∧
    (upload
      { cache := fun c => if c = "k" then some "<html>" else none,
        download := fun _ => none, decode := fun _ => none,
        cfg := { fit := false, maxSize := 0 } }
      "k" "https://src.example/x").2.count (Effect.cacheDelete "k") ≤ 1 :=
  ⟨(upload_no_cache_writes _ "k" "https://src.example/x").1 "k" "v" 0,
   (upload_no_cache_writes _ "k" "https://src.example/x").2.2⟩

/-- The rounded quotient does not exceed any bound the exact quotient
respects: `p ≤ q * c` gives `roundRatio p q ≤ c`. -/
theorem roundRatio_le (p q c : Nat) (hq : 0 < q) (h : p ≤ q * c) :
    roundRatio p q ≤ c := by
  unfold roundRatio
  split_ifs with ht
  · have hr1 : 1 ≤ p % q := by omega
    have hne : p ≠ q * c := by
      intro he
      rw [he, Nat.mul_mod_right] at hr1
      omega
    have hdlt : p / q < c := by
      rw [Nat.div_lt_iff_lt_mul hq]
      calc p < q * c := lt_of_le_of_ne h hne
      _ = c * q := Nat.mul_comm _ _
    omega
  · calc p / q ≤ q * c / q := Nat.div_le_div_right h
    _ = c := Nat.mul_div_cancel_left c hq

/-- The rounded quotient is positive as soon as `p / q ≥ 1/2`. -/
theorem roundRatio_pos (p q : Nat) (hq : 0 < q) (h : q < 2 * p) :
    1 ≤ roundRatio p q := by
  unfold roundRatio
  split_ifs with ht
  · exact Nat.le_add_left 1 (p / q)
  · have hge : q ≤ p := by
      by_contra hlt
      push_neg at hlt
      rw [Nat.mod_eq_of_lt hlt] at ht
      exact ht h
    have := (Nat.one_le_div_iff hq).mpr hge
    omega

/-- Upper half of the rounding error bound:
`roundRatio p q * q ≤ p + q / 2`. -/
theorem roundRatio_mul_le (p q : Nat) (hq : 0 < q) :
    2 * roundRatio p q * q ≤ 2 * p + q := by
  unfold roundRatio
  split_ifs with ht
  · have hdm := Nat.div_add_mod p q
    have hexp : 2 * (p / q + 1) * q = 2 * (q * (p / q)) + 2 * q := by ring
    rw [hexp]
    omega
  · have hdm := Nat.div_add_mod p q
    have hmod := Nat.mod_lt p hq
    have hexp : 2 * (p / q + 0) * q = 2 * (q * (p / q)) := by ring
    rw [hexp]
    omega

/-- Lower half of the rounding error bound:
`p ≤ roundRatio p q * q + q / 2`. -/
theorem roundRatio_mul_ge (p q : Nat) (hq : 0 < q) :
    2 * p ≤ 2 * roundRatio p q * q + q := by
  unfold roundRatio
  split_ifs with ht
  · have hdm := Nat.div_add_mod p q
    have hmod := Nat.mod_lt p hq
    have hexp : 2 * (p / q + 1) * q = 2 * (q * (p / q)) + 2 * q := by ring
    rw [hexp]
    omega
  · have hdm := Nat.div_add_mod p q
    have hexp : 2 * (p / q + 0) * q = 2 * (q * (p / q)) := by ring
    rw [hexp]
    omega

/-- The thumbnail step never upscales either dimension and brings both
dimensions within the configured bound. -/
theorem thumbnailDims_bounds (m : Nat) (img : Image) (hm : 0 < m)
    (hw : 0 < img.width) (hh : 0 < img.height) :
    (thumbnailDims m img).width ≤ img.width ∧
    (thumbnailDims m img).height ≤ img.height ∧
    max (thumbnailDims m img).width (thumbnailDims m img).height ≤ m := by
  unfold thumbnailDims
  split_ifs with hfit hbr
  · exact ⟨le_refl _, le_refl _, max_le hfit.1 hfit.2⟩
  · have hmh : m < img.height := by omega
    have hr_le_w : roundRatio (m * img.width) img.height ≤ img.width :=
      roundRatio_le _ _ _ hh
        (Nat.mul_le_mul_right img.width (le_of_lt hmh))
    have hr_le_m : roundRatio (m * img.width) img.height ≤ m := by
      refine roundRatio_le _ _ _ hh ?_
      calc m * img.width = img.width * m := Nat.mul_comm _ _
      _ ≤ img.height * m := Nat.mul_le_mul_right m hbr
    refine ⟨max_le hr_le_w hw, le_of_lt hmh, ?_⟩
    simp only [max_le_iff]
    omega
  · have hwgt : img.height < img.width := by omega
    have hmw : m < img.width := by omega
    have hr_le_h : roundRatio (m * img.height) img.width ≤ img.height :=
      roundRatio_le _ _ _ hw
        (Nat.mul_le_mul_right img.height (le_of_lt hmw))
    have hr_le_m : roundRatio (m * img.height) img.width ≤ m := by
      refine roundRatio_le _ _ _ hw ?_
      calc m * img.height = img.height * m := Nat.mul_comm _ _
      _ ≤ img.width * m := Nat.mul_le_mul_right m (le_of_lt hwgt)
    refine ⟨le_of_lt hmw, max_le hr_le_h hh, ?_⟩
    simp only [max_le_iff]
    omega

/-- The thumbnail step preserves the aspect ratio up to the rounding of
the shorter side: the cross products of the dimensions differ by at most
half the longer original side. The nondegeneracy hypothesis rules out
ratios so extreme that the rounded side would clamp to 1. -/
theorem thumbnailDims_aspect (m : Nat) (img : Image) (_hm : 0 < m)
    (hw : 0 < img.width) (hh : 0 < img.height)
    (hnd : max img.width img.height < 2 * m * min img.width img.height) :
    2 * (thumbnailDims m img).width * img.height ≤
      2 * (thumbnailDims m img).height * img.width +
        max img.width img.height ∧
    2 * (thumbnailDims m img).height * img.width ≤
      2 * (thumbnailDims m img).width * img.height +
        max img.width img.height := by
  unfold thumbnailDims
  split_ifs with hfit hbr
  · constructor
    · have : 2 * img.width * img.height = 2 * img.height * img.width := by ring
      omega
    · have : 2 * img.width * img.height = 2 * img.height * img.width := by ring
      omega
  · have hmin : min img.width img.height = img.width := min_eq_left hbr
    have hmax : max img.width img.height = img.height := max_eq_right hbr
    have hcl : img.height < 2 * (m * img.width) := by
      rw [hmin, hmax] at hnd
      calc img.height < 2 * m * img.width := hnd
      _ = 2 * (m * img.width) := by ring
    have hpos := roundRatio_pos (m * img.width) img.height hh hcl
    have hclamp :
        max (roundRatio (m * img.width) img.height) 1 =
          roundRatio (m * img.width) img.height := max_eq_left hpos
    have hub := roundRatio_mul_le (m * img.width) img.height hh
    have hlb := roundRatio_mul_ge (m * img.width) img.height hh
    simp only [hclamp, hmax]
    constructor
    · have : 2 * m * img.width = 2 * (m * img.width) := by ring
      omega
    · have : 2 * m * img.width = 2 * (m * img.width) := by ring
      omega
  · have hle : img.height ≤ img.width := by omega
    have hmin : min img.width img.height = img.height := min_eq_right hle
    have hmax : max img.width img.height = img.width := max_eq_left hle
    have hcl : img.width < 2 * (m * img.height) := by
      rw [hmin, hmax] at hnd
      calc img.width < 2 * m * img.height := hnd
      _ = 2 * (m * img.height) := by ring
    have hpos := roundRatio_pos (m * img.height) img.width hw hcl
    have hclamp :
        max (roundRatio (m * img.height) img.width) 1 =
          roundRatio (m * img.height) img.width := max_eq_left hpos
    have hub := roundRatio_mul_le (m * img.height) img.width hw
    have hlb := roundRatio_mul_ge (m * img.height) img.width hw
    simp only [hclamp, hmax]
    constructor
    · have : 2 * m * img.height = 2 * (m * img.height) := by ring
      omega
    · have : 2 * m * img.height = 2 * (m * img.height) := by ring
      omega

/-- The square-fit step keeps positive dimensions positive. -/
theorem squareFitStep_pos (fit : Bool) (img : Image) (hw : 0 < img.width)
    (hh : 0 < img.height) :
    0 < (squareFitStep fit img).width ∧ 0 < (squareFitStep fit img).height := by
  unfold squareFitStep
  split_ifs
  · constructor
    · show 0 < max img.width img.height
      omega
    · show 0 < max img.width img.height
      omega
  · exact ⟨hw, hh⟩

/-- The square-fit step either leaves the image alone or squares it to
the longest side. -/
theorem squareFitStep_cases (fit : Bool) (img : Image) :
    squareFitStep fit img = img ∨
    squareFitStep fit img =
      { width := max img.width img.height,
        height := max img.width img.height } := by
  unfold squareFitStep
  split_ifs
  · right; rfl
  · left; rfl

/-- C8: dimension-level invariants of the normalization step inside
`upload`: with square-fit enabled and a non-square input, the square-fit
step produces a square of side the longest original dimension, never
smaller than either input dimension (padding, not cropping), with a
fully transparent fill (alpha component 0); an already-square input is
untouched by the square-fit step; a truthy `maxSize` bounds both final
dimensions; the resize step never upscales beyond the square-fit output;
and the resize preserves the aspect ratio up to rounding, for inputs
whose rounded short side does not clamp to 1. -/
theorem normalize_dimension_invariants (cfg : DisplayConfig) (img : Image)
    (hw : 0 < img.width) (hh : 0 < img.height) :
    (cfg.fit = true → img.width ≠ img.height →
      squareFitStep cfg.fit img =
        { width := max img.width img.height,
          height := max img.width img.height } ∧
      img.width ≤ (squareFitStep cfg.fit img).width ∧
      img.height ≤ (squareFitStep cfg.fit img).height ∧
      squarePadFill.2.2.2 = 0) ∧
    (img.width = img.height → squareFitStep cfg.fit img = img) ∧
    (0 < cfg.maxSize →
      max (normalizeDims cfg img).width (normalizeDims cfg img).height ≤
        cfg.maxSize) ∧
    ((normalizeDims cfg img).width ≤ (squareFitStep cfg.fit img).width ∧
      (normalizeDims cfg img).height ≤ (squareFitStep cfg.fit img).height) ∧
    (0 < cfg.maxSize →
      max img.width img.height <
        2 * cfg.maxSize * min img.width img.height →
      2 * (normalizeDims cfg img).width * (squareFitStep cfg.fit img).height ≤
        2 * (normalizeDims cfg img).height *
            (squareFitStep cfg.fit img).width +
          max (squareFitStep cfg.fit img).width
            (squareFitStep cfg.fit img).height ∧
      2 * (normalizeDims cfg img).height * (squareFitStep cfg.fit img).width ≤
        2 * (normalizeDims cfg img).width *
            (squareFitStep cfg.fit img).height +
          max (squareFitStep cfg.fit img).width
            (squareFitStep cfg.fit img).height) := by
  have hP := squareFitStep_pos cfg.fit img hw hh
  refine ⟨?_, ?_, ?_, ?_, ?_⟩
  · intro hfit hne
    have heq : squareFitStep cfg.fit img =
        { width := max img.width img.height,
          height := max img.width img.height } := by
      unfold squareFitStep
      rw [if_pos ⟨hne, hfit⟩]
    refine ⟨heq, ?_, ?_, rfl⟩
    · rw [heq]
      exact le_max_left _ _
    · rw [heq]
      exact le_max_right _ _
  · intro hsq
    unfold squareFitStep
    rw [if_neg (by simp [hsq])]
  · intro hm
    have hm0 : cfg.maxSize ≠ 0 := Nat.pos_iff_ne_zero.mp hm
    simp only [normalizeDims]
    rw [if_pos hm0]
    exact (thumbnailDims_bounds cfg.maxSize (squareFitStep cfg.fit img)
      hm hP.1 hP.2).2.2
  · by_cases hm0 : cfg.maxSize = 0
    · simp only [normalizeDims]
      rw [if_neg (not_not_intro hm0)]
      exact ⟨le_refl _, le_refl _⟩
    · have hm : 0 < cfg.maxSize := Nat.pos_of_ne_zero hm0
      simp only [normalizeDims]
      rw [if_pos hm0]
      have hb := thumbnailDims_bounds cfg.maxSize (squareFitStep cfg.fit img)
        hm hP.1 hP.2
      exact ⟨hb.1, hb.2.1⟩
  · intro hm hnd
    have hm0 : cfg.maxSize ≠ 0 := Nat.pos_iff_ne_zero.mp hm
    simp only [normalizeDims]
    rw [if_pos hm0]
    have hndP : max (squareFitStep cfg.fit img).width
        (squareFitStep cfg.fit img).height <
        2 * cfg.maxSize * min (squareFitStep cfg.fit img).width
          (squareFitStep cfg.fit img).height := by
      rcases squareFitStep_cases cfg.fit img with hc | hc
      · rw [hc]
        exact hnd
      · rw [hc]
        dsimp only
        simp only [max_self, min_self]
        have h1 : 0 < max img.width img.height := by omega
        have h2 : 2 * max img.width img.height ≤
            2 * cfg.maxSize * max img.width img.height :=
          Nat.mul_le_mul_right _ (by omega)
        omega
    exact thumbnailDims_aspect cfg.maxSize (squareFitStep cfg.fit img)
      hm hP.1 hP.2 hndP

/-- C8 witness: a 200 by 300 input with `maxSize = 1000` is not
upscaled; with square-fit and `maxSize = 100` it is padded to 300 by 300
and resized to 100 by 100, within the bound delivered by the theorem. -/
theorem normalize_dimension_invariants_witness :
    normalizeDims { fit := false, maxSize := 1000 } ⟨200, 300⟩ = ⟨200, 300⟩ ∧
    normalizeDims { fit := true, maxSize := 100 } ⟨200, 300⟩ = ⟨100, 100⟩ ∧
    squareFitStep true ⟨200, 300⟩ = ⟨300, 300⟩ ∧
    max (normalizeDims { fit := true, maxSize := 100 } (⟨200, 300⟩ : Image)).width
      (normalizeDims { fit := true, maxSize := 100 } (⟨200, 300⟩ : Image)).height ≤
      100 :=
  ⟨by decide, by decide, by decide,
   (normalize_dimension_invariants { fit := true, maxSize := 100 } ⟨200, 300⟩
      (by decide) (by decide)).2.2.1 (by decide)⟩
